import Mathlib

/-!
# GxNotify: event normalizers and watch registry

A shallow embedding of the three Go files of the fsnotify package
(win_fsnotify.go, mac_fsnotify.go, fsnotify.go).

* A callback invocation `cb(watchid, oldfile, newfile, op, filetype)` is
  recorded as a `Call`; a normalizer returns the list of calls it makes, in
  order.
* `os.Stat` is an oracle `FS` answering for a path at the moment of the call.
* A normalizer goroutine is a step function over the values its `select`
  can receive.
* The registry (`watcherMutex`, `watcherMap`) together with the raw event
  sources and goroutines it owns is an explicit state record.
-/

namespace GxNotify

/-! ## Shared data model -/

/-- One invocation of the Callback function value, with its five string arguments. -/
structure Call where
  watchid : String
  oldfile : String
  newfile : String
  op : String
  filetype : String
deriving DecidableEq, Repr

/-- Answer of os.Stat for a path: a FileInfo (only IsDir is read), an error for
which os.IsNotExist holds, or any other error. -/
inductive StatResult where
  | ok (isDir : Bool)
  | notExist
  | otherErr
deriving DecidableEq, Repr

/-- The stat call returned a nil error. -/
def StatResult.isOk : StatResult → Bool
  | .ok _ => true
  | _ => false

/-- The file system as seen by os.Stat at one moment. -/
abbrev FS := String → StatResult

/-- What one iteration of a goroutine select can receive: a value on the Events
channel, a read on the closed Events channel, a value on the Errors channel
(flagged non-nil or nil), a read on the closed Errors channel. -/
inductive Input (α : Type) where
  | events (x : α)
  | eventsClosed
  | errors (nonNil : Bool)
  | errorsClosed
deriving Repr

/-- Input is a read that observes a closed channel. -/
def Input.isClosure {α : Type} : Input α → Bool
  | .eventsClosed => true
  | .errorsClosed => true
  | _ => false

/-- Indexing of a Go map of strings held as a list of key and value pairs: the
value of the key, or the zero value when the key is absent. -/
def mapIndex (m : List (Nat × String)) (k : Nat) : String :=
  (m.lookup k).getD ""

/-! ## Registry state shared by the three files -/

/-- The package level state `watcherMutex` and `watcherMap`, and what the
registry functions do to the world outside the map: raw event sources they
create (each gets the next handle), start and stop, and goroutines they start.
`κ` is the type of callback values. -/
structure Registry (κ : Type) where
  /-- Field locked: watcherMutex is held. -/
  locked : Bool
  /-- Field watcherMap: watch id to the handle of its raw event source. -/
  watcherMap : String → Option Nat
  /-- Field created: the number of raw event sources created so far. -/
  created : Nat
  /-- Field started: the sources told to watch a path, in order. -/
  started : List (Nat × String)
  /-- Field tasks: the normalizer goroutines started, in order. -/
  tasks : List (String × Nat × κ)
  /-- Field stopped: the sources on which Close or Stop was called, in order. -/
  stopped : List Nat

/-- How a call of a registry function ends: it returns, it never gets past
`watcherMutex.Lock()` because the mutex is held, or it ends the process
through log.Fatal. Each case carries the registry state at that point. -/
inductive Outcome (κ : Type) where
  | returned (s : Registry κ)
  | blocked (s : Registry κ)
  | fatal (s : Registry κ)

/-- The registry state an outcome carries. -/
def Outcome.state {κ : Type} : Outcome κ → Registry κ
  | .returned s => s
  | .blocked s => s
  | .fatal s => s

/-- The call returned to its caller. -/
def Outcome.isReturned {κ : Type} : Outcome κ → Bool
  | .returned _ => true
  | _ => false

/-- The call never got past Lock. -/
def Outcome.isBlocked {κ : Type} : Outcome κ → Bool
  | .blocked _ => true
  | _ => false

/-- Go map assignment `m[k] = v`. -/
def mapSet (m : String → Option Nat) (k : String) (v : Nat) : String → Option Nat :=
  fun x => if x = k then some v else m x

/-- Go builtin `delete(m, k)`. -/
def mapDelete (m : String → Option Nat) (k : String) : String → Option Nat :=
  fun x => if x = k then none else m x

/-- The number of times Close or Stop was called on source w. -/
def Registry.stopCount {κ : Type} (s : Registry κ) (w : Nat) : Nat :=
  s.stopped.count w

/-- A registry holding the single watch "w" on source 0, with the mutex released. -/
def Registry.oneWatch : Registry Unit :=
  ⟨false, mapSet (fun _ => none) "w" 0, 1, [(0, "/tmp/d")], [("w", 0, ())], []⟩

/-! ## win_fsnotify.go -/

namespace Win

/-- Function AddWatcher up to the start of the goroutine. `newWatcherErr` and
`addErr` say whether NewWatcher and watcher.Add return an error. -/
def AddWatcher {κ : Type} (s : Registry κ) (watchid path : String) (cb : κ)
    (newWatcherErr addErr : Bool) : Outcome κ :=
  if s.locked then .blocked s else
  -- watcherMutex.Lock(); the deferred Unlock runs at every return
  let s := { s with locked := true }
  match s.watcherMap watchid with
  | some _ => .returned { s with locked := false }
  | none =>
    if newWatcherErr then .returned { s with locked := false } else
    let watcher := s.created
    let s := { s with created := s.created + 1 }
    if addErr then .fatal s else
    let s := { s with started := s.started ++ [(watcher, path)] }
    let s := { s with watcherMap := mapSet s.watcherMap watchid watcher }
    let s := { s with tasks := s.tasks ++ [(watchid, watcher, cb)] }
    .returned { s with locked := false }

/-- Function DelWatcher. -/
def DelWatcher {κ : Type} (s : Registry κ) (watchid : String) : Outcome κ :=
  if s.locked then .blocked s else
  let s := { s with locked := true }
  match s.watcherMap watchid with
  | some watcher =>
    let s := { s with stopped := s.stopped ++ [watcher] }
    let s := { s with watcherMap := mapDelete s.watcherMap watchid }
    .returned { s with locked := false }
  | none => .returned { s with locked := false }

/-- Op describes a set of file operations (uint32 bit set). -/
abbrev Op := Nat

def Create : Op := 1 <<< 0
def Write : Op := 1 <<< 1
def Remove : Op := 1 <<< 2
def Rename : Op := 1 <<< 3
def Chmod : Op := 1 <<< 4

/-- Event represents a single file system notification. -/
structure Event where
  Name : String
  Op : Op
deriving DecidableEq, Repr

/-- The map literal noteDescription. -/
def noteDescription : List (Nat × String) :=
  [(Create, "create"), (Remove, "delete"), (Rename, "rename"), (Write, "change")]

/-- Function getFileType: "1" for a directory, "0" for anything else and on a stat error. -/
def getFileType (fs : FS) (path : String) : String :=
  match fs path with
  | .ok isDir => if isDir then "1" else "0"
  | _ => "0"

/-- Body of the Events case of the goroutine in AddWatcher, after the closed
check: the callbacks made for `event` when the previous event is `lastevent`. -/
def onEvent (watchid : String) (fs : FS) (lastevent event : Event) : List Call :=
  let filetype := getFileType fs event.Name
  if event.Op &&& Rename != Rename then
    if lastevent.Op &&& Rename == Rename && event.Op &&& Create == Create then
      [⟨watchid, lastevent.Name, event.Name, mapIndex noteDescription Rename, filetype⟩]
    else
      (if lastevent.Op &&& Create == Create then
        [⟨watchid, event.Name, "", mapIndex noteDescription Create, filetype⟩] else []) ++
      (if lastevent.Op &&& Write == Write then
        [⟨watchid, event.Name, "", mapIndex noteDescription Write, filetype⟩] else []) ++
      (if lastevent.Op &&& Remove == Remove then
        [⟨watchid, event.Name, "", mapIndex noteDescription Remove, filetype⟩] else [])
  else []

/-- State of the goroutine started by AddWatcher: inside the for loop holding
the local variable lastevent, or returned. -/
inductive Task where
  | running (lastevent : Event)
  | done
deriving DecidableEq, Repr

/-- The goroutine right after `var lastevent Event`. -/
def Task.fresh : Task := .running ⟨"", 0⟩

/-- One iteration of the for and select loop of the goroutine: the next state
and the callbacks made. The file system is the one seen during the iteration. -/
def step (watchid : String) : Task → FS × Input Event → Task × List Call
  | .done, _ => (.done, [])
  | .running lastevent, (fs, .events event) =>
      (.running event, onEvent watchid fs lastevent event)
  | .running _, (_, .eventsClosed) => (.done, [])
  | .running lastevent, (_, .errors _) => (.running lastevent, [])
  | .running _, (_, .errorsClosed) => (.done, [])

/-- The goroutine run over a sequence of received inputs: final state and all
callbacks made, in order. -/
def run (watchid : String) : Task → List (FS × Input Event) → Task × List Call
  | t, [] => (t, [])
  | t, x :: xs =>
      let r := step watchid t x
      let r2 := run watchid r.1 xs
      (r2.1, r.2 ++ r2.2)

/-- The raw events the goroutine takes from the Events channel, in arrival
order, up to the read that makes it return. -/
def received : List (FS × Input Event) → List Event
  | [] => []
  | (_, .events e) :: xs => e :: received xs
  | (_, .errors _) :: xs => received xs
  | (_, .eventsClosed) :: _ => []
  | (_, .errorsClosed) :: _ => []

end Win

/-! ## mac_fsnotify.go -/

namespace Mac

/-- Function AddWatcher up to the start of the goroutine. `deviceErr` says
whether DeviceForPath fails inside NewEeventStream, which then ends the process
through log.Fatalf; otherwise NewEeventStream returns a stream and a nil error. -/
def AddWatcher {κ : Type} (s : Registry κ) (watchid path : String) (cb : κ)
    (deviceErr : Bool) : Outcome κ :=
  if s.locked then .blocked s else
  let s := { s with locked := true }
  match s.watcherMap watchid with
  | some _ => .returned { s with locked := false }
  | none =>
    if deviceErr then .fatal s else
    let es := s.created
    let s := { s with created := s.created + 1 }
    let s := { s with started := s.started ++ [(es, path)] }
    let s := { s with watcherMap := mapSet s.watcherMap watchid es }
    let s := { s with tasks := s.tasks ++ [(watchid, es, cb)] }
    .returned { s with locked := false }

/-- Function DelWatcher. -/
def DelWatcher {κ : Type} (s : Registry κ) (watchid : String) : Outcome κ :=
  if s.locked then .blocked s else
  let s := { s with locked := true }
  match s.watcherMap watchid with
  | some es =>
    let s := { s with stopped := s.stopped ++ [es] }
    let s := { s with watcherMap := mapDelete s.watcherMap watchid }
    .returned { s with locked := false }
  | none => .returned { s with locked := false }

/-- The declarations mac_fsnotify.go uses from the event stream library and that
are not part of the sources: the values of the EventFlags constants and the bit
width of the unsigned Event.ID field. They are parameters of the model. -/
structure Consts where
  ItemCreated : Nat
  ItemRemoved : Nat
  ItemRenamed : Nat
  ItemModified : Nat
  ItemIsFile : Nat
  ItemIsDir : Nat
  ItemIsSymlink : Nat
  idBits : Nat
deriving DecidableEq, Repr

/-- The seven keys of the map literal noteDescription are pairwise different
constants (a Go map literal with a repeated constant key does not compile). -/
def Consts.Distinct (K : Consts) : Prop :=
  [K.ItemCreated, K.ItemRemoved, K.ItemRenamed, K.ItemModified,
    K.ItemIsFile, K.ItemIsDir, K.ItemIsSymlink].Nodup

instance (K : Consts) : Decidable K.Distinct := by
  unfold Consts.Distinct; infer_instance

/-- The constants of the FSEvents interface of darwin, a concrete instance. -/
def darwin : Consts where
  ItemCreated := 0x100
  ItemRemoved := 0x200
  ItemRenamed := 0x800
  ItemModified := 0x1000
  ItemIsFile := 0x10000
  ItemIsDir := 0x20000
  ItemIsSymlink := 0x40000
  idBits := 64

/-- One record of a batch delivered on the Events channel. -/
structure Event where
  Path : String
  Flags : Nat
  ID : Nat
deriving DecidableEq, Repr

/-- The map literal noteDescription. -/
def noteDescription (K : Consts) : List (Nat × String) :=
  [(K.ItemCreated, "create"), (K.ItemRemoved, "delete"), (K.ItemRenamed, "rename"),
    (K.ItemModified, "change"), (K.ItemIsFile, "0"), (K.ItemIsDir, "1"),
    (K.ItemIsSymlink, "0")]

/-- Function pathExists: the pair (exists, err is non-nil). -/
def pathExists (fs : FS) (path : String) : Bool × Bool :=
  match fs path with
  | .ok _ => (true, false)
  | .notExist => (false, false)
  | .otherErr => (false, true)

/-- Function handleEvent: the callbacks made for one record classified alone. -/
def handleEvent (K : Consts) (watchid : String) (fs : FS) (event : Event) : List Call :=
  let filetype :=
    if event.Flags &&& K.ItemIsDir == K.ItemIsDir then mapIndex (noteDescription K) K.ItemIsDir
    else mapIndex (noteDescription K) K.ItemIsFile
  let event : Event := { event with Path := "/" ++ event.Path }
  (if event.Flags &&& K.ItemRenamed == K.ItemRenamed then
    (if (pathExists fs event.Path).1 then
      [⟨watchid, event.Path, "", mapIndex (noteDescription K) K.ItemCreated, filetype⟩]
    else
      [⟨watchid, event.Path, "", mapIndex (noteDescription K) K.ItemRemoved, filetype⟩])
   else []) ++
  (if event.Flags &&& K.ItemCreated == K.ItemCreated then
    [⟨watchid, event.Path, "", mapIndex (noteDescription K) K.ItemCreated, filetype⟩] else []) ++
  (if event.Flags &&& K.ItemRemoved == K.ItemRemoved then
    [⟨watchid, event.Path, "", mapIndex (noteDescription K) K.ItemRemoved, filetype⟩] else []) ++
  (if event.Flags &&& K.ItemModified == K.ItemModified then
    [⟨watchid, event.Path, "", mapIndex (noteDescription K) K.ItemModified, filetype⟩] else [])

/-- Function handleEvent2: the callbacks made for two records handled together. -/
def handleEvent2 (K : Consts) (watchid : String) (event1 event2 : Event) : List Call :=
  if event1.Flags &&& K.ItemRenamed == K.ItemRenamed &&
      event2.Flags &&& K.ItemRenamed == K.ItemRenamed then
    let filetype :=
      if event1.Flags &&& K.ItemIsDir == K.ItemIsDir then mapIndex (noteDescription K) K.ItemIsDir
      else mapIndex (noteDescription K) K.ItemIsFile
    let event1 : Event := { event1 with Path := "/" ++ event1.Path }
    let event2 : Event := { event2 with Path := "/" ++ event2.Path }
    [⟨watchid, event1.Path, event2.Path, mapIndex (noteDescription K) K.ItemRenamed, filetype⟩]
  else []

/-- The test `msg[i].ID+1 == msg[i+1].ID` of the batch loop, the addition being
the one of the unsigned ID type. -/
def seqID (K : Consts) (a b : Event) : Bool :=
  (a.ID + 1) % 2 ^ K.idBits == b.ID

/-- Body of the batch loop of the goroutine in AddWatcher at index i, followed by
the increment of the for clause: the callbacks made and the next value of i.
The file system `fs i` is the one seen while record i is handled. -/
def iteration (K : Consts) (watchid : String) (fs : Nat → FS) (msg : List Event) (i : Nat) :
    List Call × Nat :=
  match msg[i]?, msg[i + 1]? with
  | some a, some b =>
      if seqID K a b then (handleEvent2 K watchid a b, i + 1 + 1)
      else (handleEvent K watchid (fs i) a, i + 1)
  | some a, none => (handleEvent K watchid (fs i) a, i + 1)
  | none, _ => ([], i + 1)

/-- The batch loop `for i := 0; i < msglen; i++` from index i, with a bound on
the number of iterations. -/
def loop (K : Consts) (watchid : String) (fs : Nat → FS) (msg : List Event) :
    Nat → Nat → List Call
  | 0, _ => []
  | fuel + 1, i =>
      if i < msg.length then
        let r := iteration K watchid fs msg i
        r.1 ++ loop K watchid fs msg fuel r.2
      else []

/-- The batch loop from index i: every iteration advances i, so the number of
records left bounds the number of iterations. -/
def scanFrom (K : Consts) (watchid : String) (fs : Nat → FS) (msg : List Event) (i : Nat) :
    List Call :=
  loop K watchid fs msg (msg.length - i) i

/-- Body of the Events case of the goroutine: the whole batch loop. -/
def onBatch (K : Consts) (watchid : String) (fs : Nat → FS) (msg : List Event) : List Call :=
  scanFrom K watchid fs msg 0

/-- The indices at which the batch loop evaluates its guard: 0, and the next
value of i after an iteration at a reached index inside the batch. -/
inductive Reached (K : Consts) (msg : List Event) : Nat → Prop where
  | start : Reached K msg 0
  | next {i : Nat} (watchid : String) (fs : Nat → FS) :
      Reached K msg i → i < msg.length → Reached K msg (iteration K watchid fs msg i).2

/-- State of the goroutine started by AddWatcher: inside the for loop, or returned. -/
inductive Task where
  | running
  | done
deriving DecidableEq, Repr

/-- One iteration of the for and select loop of the goroutine. A receive on the
closed Events channel yields the nil batch, a receive on the closed Errors
channel yields the nil error (neither case tests the ok flag). -/
def step (K : Consts) (watchid : String) : Task → (Nat → FS) × Input (List Event) → Task × List Call
  | .done, _ => (.done, [])
  | .running, (fs, .events msg) => (.running, onBatch K watchid fs msg)
  | .running, (fs, .eventsClosed) => (.running, onBatch K watchid fs [])
  | .running, (_, .errors nonNil) => if nonNil then (.done, []) else (.running, [])
  | .running, (_, .errorsClosed) => (.running, [])

/-- The goroutine run over a sequence of received inputs. -/
def run (K : Consts) (watchid : String) :
    Task → List ((Nat → FS) × Input (List Event)) → Task × List Call
  | t, [] => (t, [])
  | t, x :: xs =>
      let r := step K watchid t x
      let r2 := run K watchid r.1 xs
      (r2.1, r.2 ++ r2.2)

end Mac

/-! ## fsnotify.go -/

namespace Fsnotify

/-- Function AddWatcher. The two early returns come before
`watcherMutex.Unlock()` and nothing is deferred; the goroutine is started
before watcher.Add is called. -/
def AddWatcher {κ : Type} (s : Registry κ) (watchid path : String) (cb : κ)
    (newWatcherErr addErr : Bool) : Outcome κ :=
  if s.locked then .blocked s else
  let s := { s with locked := true }
  match s.watcherMap watchid with
  | some _ => .returned s
  | none =>
    if newWatcherErr then .returned s else
    let watcher := s.created
    let s := { s with created := s.created + 1 }
    let s := { s with watcherMap := mapSet s.watcherMap watchid watcher }
    let s := { s with locked := false }
    let s := { s with tasks := s.tasks ++ [(watchid, watcher, cb)] }
    if addErr then .fatal s else
    .returned { s with started := s.started ++ [(watcher, path)] }

/-- Function DelWatcher: the entry is closed and stays in the map. -/
def DelWatcher {κ : Type} (s : Registry κ) (watchid : String) : Outcome κ :=
  if s.locked then .blocked s else
  let s := { s with locked := true }
  match s.watcherMap watchid with
  | some watcher =>
    let s := { s with stopped := s.stopped ++ [watcher] }
    .returned { s with locked := false }
  | none => .returned { s with locked := false }

/-- Op describes a set of file operations (uint32 bit set). -/
abbrev Op := Nat

def Create : Op := 1 <<< 0
def Write : Op := 1 <<< 1
def Remove : Op := 1 <<< 2
def Rename : Op := 1 <<< 3
def Chmod : Op := 1 <<< 4

/-- Event represents a single file system notification. -/
structure Event where
  Name : String
  Op : Op
deriving DecidableEq, Repr

/-- Method Op.String: the names of the set bits joined by a pipe. -/
def Op.String (op : Op) : String :=
  let buffer := ""
  let buffer := if op &&& Create == Create then buffer ++ "|CREATE" else buffer
  let buffer := if op &&& Remove == Remove then buffer ++ "|REMOVE" else buffer
  let buffer := if op &&& Write == Write then buffer ++ "|WRITE" else buffer
  let buffer := if op &&& Rename == Rename then buffer ++ "|RENAME" else buffer
  let buffer := if op &&& Chmod == Chmod then buffer ++ "|CHMOD" else buffer
  if buffer.length == 0 then "" else buffer.drop 1

/-- Body of the Events case of the goroutine in AddWatcher, after the closed check. -/
def onEvent (watchid : String) (lastevent event : Event) : List Call :=
  if event.Op != Rename then
    if lastevent.Op == Rename && event.Op == Create then
      [⟨watchid, lastevent.Name, event.Name, Op.String lastevent.Op, ""⟩]
    else
      [⟨watchid, event.Name, "", Op.String event.Op, ""⟩]
  else []

/-- State of the goroutine started by AddWatcher. -/
inductive Task where
  | running (lastevent : Event)
  | done
deriving DecidableEq, Repr

/-- The goroutine right after `var lastevent Event`. -/
def Task.fresh : Task := .running ⟨"", 0⟩

/-- One iteration of the for and select loop of the goroutine. -/
def step (watchid : String) : Task → Input Event → Task × List Call
  | .done, _ => (.done, [])
  | .running lastevent, .events event => (.running event, onEvent watchid lastevent event)
  | .running _, .eventsClosed => (.done, [])
  | .running lastevent, .errors _ => (.running lastevent, [])
  | .running _, .errorsClosed => (.done, [])

/-- The goroutine run over a sequence of received inputs. -/
def run (watchid : String) : Task → List (Input Event) → Task × List Call
  | t, [] => (t, [])
  | t, x :: xs =>
      let r := step watchid t x
      let r2 := run watchid r.1 xs
      (r2.1, r.2 ++ r2.2)

end Fsnotify

end GxNotify

namespace GxNotify

/-! ## Lemmas on map indexing -/

theorem mapIndex_cons_self (k : Nat) (v : String) (m : List (Nat × String)) :
    mapIndex ((k, v) :: m) k = v := by
  simp [mapIndex, List.lookup]

theorem mapIndex_cons_ne (k a : Nat) (v : String) (m : List (Nat × String)) (h : k ≠ a) :
    mapIndex ((a, v) :: m) k = mapIndex m k := by
  have : (k == a) = false := by simpa using h
  simp [mapIndex, List.lookup, this]

/-! ## Lemmas on win_fsnotify.go -/

namespace Win

theorem win_run_append (watchid : String) (t : Task) (xs ys : List (FS × Input Event)) :
    run watchid t (xs ++ ys) =
      ((run watchid (run watchid t xs).1 ys).1,
        (run watchid t xs).2 ++ (run watchid (run watchid t xs).1 ys).2) := by
  induction xs generalizing t with
  | nil => simp [run]
  | cons x xs ih => simp [run, ih, List.append_assoc]

/-- A goroutine that has only received values on the Events channel is still in
its loop. -/
theorem run_events_running (watchid : String) (pre : List (FS × Event)) (last : Event) :
    ∃ l, (run watchid (.running last) (pre.map fun p => (p.1, Input.events p.2))).1 = .running l := by
  induction pre generalizing last with
  | nil => exact ⟨last, rfl⟩
  | cons p pre ih =>
    obtain ⟨l, hl⟩ := ih p.2
    exact ⟨l, by simpa [run, step] using hl⟩

theorem onEvent_rename (watchid : String) (fs : FS) (last : Event) (a : String) :
    onEvent watchid fs last ⟨a, Rename⟩ = [] := by
  simp [onEvent, Rename]

theorem getFileType_eq (fs : FS) (p : String) :
    getFileType fs p = if fs p = .ok true then "1" else "0" := by
  unfold getFileType
  cases h : fs p with
  | ok d => cases d <;> simp
  | notExist => simp
  | otherErr => simp

theorem onEvent_rename_create (watchid : String) (fs : FS) (a b : String) :
    onEvent watchid fs ⟨a, Rename⟩ ⟨b, Create⟩ =
      [⟨watchid, a, b, "rename", if fs b = .ok true then "1" else "0"⟩] := by
  simp [onEvent, Rename, Create, Remove, Write, mapIndex, noteDescription, getFileType_eq,
    List.lookup]

theorem getFileType_mem (fs : FS) (p : String) :
    getFileType fs p = "0" ∨ getFileType fs p = "1" := by
  rw [getFileType_eq]; split <;> simp

theorem win_noteDescription_values :
    mapIndex noteDescription Create = "create" ∧ mapIndex noteDescription Remove = "delete" ∧
    mapIndex noteDescription Rename = "rename" ∧ mapIndex noteDescription Write = "change" := by
  simp [Rename, Create, Remove, Write, mapIndex, noteDescription, List.lookup]

/-- Shape of every callback made for one event. -/
theorem onEvent_shape (watchid : String) (fs : FS) (last e : Event) (c : Call)
    (hc : c ∈ onEvent watchid fs last e) :
    c.watchid = watchid ∧
    (c.op = "create" ∨ c.op = "delete" ∨ c.op = "rename" ∨ c.op = "change") ∧
    (c.filetype = "0" ∨ c.filetype = "1") ∧
    (c.op ≠ "rename" → c.newfile = "") ∧
    (c.op = "rename" →
      last.Op &&& Rename = Rename ∧ c.oldfile = last.Name ∧ c.newfile = e.Name) := by
  obtain ⟨h1, h2, h3, h4⟩ := win_noteDescription_values
  have hft := getFileType_mem fs e.Name
  unfold onEvent at hc
  rw [h1, h2, h3, h4] at hc
  split at hc
  · split at hc
    · rename_i hpair
      simp only [Bool.and_eq_true, beq_iff_eq] at hpair
      simp only [List.mem_singleton] at hc
      subst hc
      simp [hft, hpair.1]
    · simp only [List.mem_append] at hc
      rcases hc with (hc | hc) | hc <;>
      · split at hc
        · simp only [List.mem_singleton] at hc
          subst hc
          simp [hft]
        · simp at hc
  · simp at hc

theorem win_run_done (watchid : String) (xs : List (FS × Input Event)) :
    run watchid .done xs = (.done, []) := by
  induction xs with
  | nil => rfl
  | cons x xs ih => simp [run, step, ih]

/-- Shape of every callback of a run started inside the loop with any lastevent. -/
theorem run_shape (watchid : String) (last : Event) (inputs : List (FS × Input Event)) (c : Call)
    (hc : c ∈ (run watchid (.running last) inputs).2) :
    c.watchid = watchid ∧
    (c.op = "create" ∨ c.op = "delete" ∨ c.op = "rename" ∨ c.op = "change") ∧
    (c.filetype = "0" ∨ c.filetype = "1") ∧
    (c.op ≠ "rename" → c.newfile = "") ∧
    (c.op = "rename" → ∃ e1 e2, [e1, e2] <:+: last :: received inputs ∧
      e1.Op &&& Rename = Rename ∧ c.oldfile = e1.Name ∧ c.newfile = e2.Name) := by
  induction inputs generalizing last with
  | nil => simp [run] at hc
  | cons x xs ih =>
    obtain ⟨fs, inp⟩ := x
    cases inp with
    | events e =>
      simp only [run, step, List.mem_append] at hc
      rcases hc with hc | hc
      · obtain ⟨h1, h2, h3, h4, h5⟩ := onEvent_shape watchid fs last e c hc
        refine ⟨h1, h2, h3, h4, fun hr => ?_⟩
        obtain ⟨ha, hb, hd⟩ := h5 hr
        exact ⟨last, e, ⟨[], received xs, by simp [received]⟩, ha, hb, hd⟩
      · obtain ⟨h1, h2, h3, h4, h5⟩ := ih e hc
        refine ⟨h1, h2, h3, h4, fun hr => ?_⟩
        obtain ⟨e1, e2, hin, ha, hb, hd⟩ := h5 hr
        refine ⟨e1, e2, ?_, ha, hb, hd⟩
        simp only [received]
        exact hin.trans (List.suffix_cons last _).isInfix
    | eventsClosed => simp [run, step, win_run_done] at hc
    | errorsClosed => simp [run, step, win_run_done] at hc
    | errors b =>
      simp only [run, step, List.nil_append] at hc
      simpa [received] using ih last hc

end Win

/-! ## Lemmas on mac_fsnotify.go -/

namespace Mac

/-- With pairwise different keys the map literal holds the seven entries as written. -/
theorem mac_noteDescription_values (K : Consts) (hK : K.Distinct) :
    mapIndex (noteDescription K) K.ItemCreated = "create" ∧
    mapIndex (noteDescription K) K.ItemRemoved = "delete" ∧
    mapIndex (noteDescription K) K.ItemRenamed = "rename" ∧
    mapIndex (noteDescription K) K.ItemModified = "change" ∧
    mapIndex (noteDescription K) K.ItemIsFile = "0" ∧
    mapIndex (noteDescription K) K.ItemIsDir = "1" ∧
    mapIndex (noteDescription K) K.ItemIsSymlink = "0" := by
  unfold Consts.Distinct at hK
  simp only [List.nodup_cons, List.mem_cons, List.mem_singleton, not_or, List.not_mem_nil,
    not_false_eq_true, List.nodup_nil, and_true] at hK
  obtain ⟨⟨h12, h13, h14, h15, h16, h17⟩, ⟨h23, h24, h25, h26, h27⟩, ⟨h34, h35, h36, h37⟩,
    ⟨h45, h46, h47⟩, ⟨h56, h57⟩, h67⟩ := hK
  simp [noteDescription, mapIndex_cons_self, mapIndex_cons_ne, Ne.symm h12, Ne.symm h13,
    Ne.symm h14, Ne.symm h15, Ne.symm h16, Ne.symm h17, Ne.symm h23, Ne.symm h24, Ne.symm h25,
    Ne.symm h26, Ne.symm h27, Ne.symm h34, Ne.symm h35, Ne.symm h36, Ne.symm h37,
    Ne.symm h45, Ne.symm h46, Ne.symm h47, Ne.symm h56, Ne.symm h57, Ne.symm h67]

theorem pathExists_fst (fs : FS) (p : String) : (pathExists fs p).1 = (fs p).isOk := by
  unfold pathExists
  cases fs p <;> rfl

/-- The callbacks of handleEvent written out with the string tokens. -/
theorem handleEvent_eq (K : Consts) (hK : K.Distinct) (watchid : String) (fs : FS) (e : Event) :
    handleEvent K watchid fs e =
      (if e.Flags &&& K.ItemRenamed = K.ItemRenamed then
        [⟨watchid, "/" ++ e.Path, "", if (fs ("/" ++ e.Path)).isOk then "create" else "delete",
          if e.Flags &&& K.ItemIsDir = K.ItemIsDir then "1" else "0"⟩] else []) ++
      (if e.Flags &&& K.ItemCreated = K.ItemCreated then
        [⟨watchid, "/" ++ e.Path, "", "create",
          if e.Flags &&& K.ItemIsDir = K.ItemIsDir then "1" else "0"⟩] else []) ++
      (if e.Flags &&& K.ItemRemoved = K.ItemRemoved then
        [⟨watchid, "/" ++ e.Path, "", "delete",
          if e.Flags &&& K.ItemIsDir = K.ItemIsDir then "1" else "0"⟩] else []) ++
      (if e.Flags &&& K.ItemModified = K.ItemModified then
        [⟨watchid, "/" ++ e.Path, "", "change",
          if e.Flags &&& K.ItemIsDir = K.ItemIsDir then "1" else "0"⟩] else []) := by
  obtain ⟨h1, h2, _, h4, h5, h6, _⟩ := mac_noteDescription_values K hK
  unfold handleEvent
  simp only [h1, h2, h4, h5, h6, pathExists_fst, beq_iff_eq]
  congr 3
  split
  · split <;> simp_all
  · rfl

/-- The callbacks of handleEvent2 written out with the string tokens. -/
theorem handleEvent2_eq (K : Consts) (hK : K.Distinct) (watchid : String) (a b : Event) :
    handleEvent2 K watchid a b =
      if a.Flags &&& K.ItemRenamed = K.ItemRenamed ∧ b.Flags &&& K.ItemRenamed = K.ItemRenamed then
        [⟨watchid, "/" ++ a.Path, "/" ++ b.Path, "rename",
          if a.Flags &&& K.ItemIsDir = K.ItemIsDir then "1" else "0"⟩]
      else [] := by
  obtain ⟨_, _, h3, _, h5, h6, _⟩ := mac_noteDescription_values K hK
  unfold handleEvent2
  simp only [h3, h5, h6, beq_iff_eq, Bool.and_eq_true, decide_eq_true_eq]

/-- Every iteration advances the index by one or by two. -/
theorem iteration_snd (K : Consts) (watchid : String) (fs : Nat → FS) (msg : List Event)
    (i : Nat) :
    (iteration K watchid fs msg i).2 = i + 1 ∨ (iteration K watchid fs msg i).2 = i + 2 := by
  unfold iteration
  split
  · split <;> simp
  · simp
  · simp

theorem loop_succ (K : Consts) (watchid : String) (fs : Nat → FS) (msg : List Event)
    (fuel i : Nat) (h : msg.length - i ≤ fuel) :
    loop K watchid fs msg (fuel + 1) i = loop K watchid fs msg fuel i := by
  induction fuel generalizing i with
  | zero =>
    have : ¬ i < msg.length := by omega
    simp [loop, this]
  | succ n ih =>
    rw [loop, loop]
    split
    · have hlt := iteration_snd K watchid fs msg i
      simp only
      rw [ih]
      rcases hlt with h2 | h2 <;> omega
    · rfl

/-- More iterations than records left change nothing. -/
theorem loop_fuel (K : Consts) (watchid : String) (fs : Nat → FS) (msg : List Event)
    (fuel i : Nat) (h : msg.length - i ≤ fuel) :
    loop K watchid fs msg fuel i = scanFrom K watchid fs msg i := by
  unfold scanFrom
  obtain ⟨d, rfl⟩ := Nat.exists_eq_add_of_le h
  induction d with
  | zero => rfl
  | succ d ih =>
    rw [← Nat.add_assoc, loop_succ _ _ _ _ _ _ (by omega)]
    exact ih (by omega)

/-- The batch loop at an index inside the batch: one iteration, then the loop
from the next index. -/
theorem scanFrom_lt (K : Consts) (watchid : String) (fs : Nat → FS) (msg : List Event)
    (i : Nat) (h : i < msg.length) :
    scanFrom K watchid fs msg i =
      (iteration K watchid fs msg i).1 ++
        scanFrom K watchid fs msg (iteration K watchid fs msg i).2 := by
  have hlt := iteration_snd K watchid fs msg i
  obtain ⟨k, hk⟩ : ∃ k, msg.length - i = k + 1 := ⟨msg.length - i - 1, by omega⟩
  conv_lhs => unfold scanFrom
  rw [hk, loop, if_pos h]
  simp only
  rw [loop_fuel]
  rcases hlt with h2 | h2 <;> omega

/-- The batch loop at an index past the batch makes no callback. -/
theorem scanFrom_ge (K : Consts) (watchid : String) (fs : Nat → FS) (msg : List Event)
    (i : Nat) (h : msg.length ≤ i) : scanFrom K watchid fs msg i = [] := by
  unfold scanFrom
  have : msg.length - i = 0 := by omega
  rw [this, loop]

/-- Every callback of the batch loop is made by an iteration at an index inside
the batch. -/
theorem mem_scanFrom (K : Consts) (watchid : String) (fs : Nat → FS) (msg : List Event)
    (fuel i : Nat) (c : Call) (hc : c ∈ loop K watchid fs msg fuel i) :
    ∃ j, j < msg.length ∧ c ∈ (iteration K watchid fs msg j).1 := by
  induction fuel generalizing i with
  | zero => simp [loop] at hc
  | succ n ih =>
    rw [loop] at hc
    split at hc
    · rename_i hi
      simp only [List.mem_append] at hc
      rcases hc with hc | hc
      · exact ⟨i, hi, hc⟩
      · exact ih _ hc
    · simp at hc

end Mac

end GxNotify

namespace GxNotify

/-! ## Registry: duplicate registration, removal, lock discipline -/

/-- DelWatcher of win_fsnotify.go: the entry is gone, other entries are kept, an
absent id changes nothing and a present id has its source closed once more. -/
theorem win_DelWatcher_spec {κ : Type} (s : Registry κ) (watchid : String)
    (hl : s.locked = false) :
    ∃ s2, Win.DelWatcher s watchid = .returned s2 ∧ s2.locked = false ∧
      s2.watcherMap watchid = none ∧
      (∀ other, other ≠ watchid → s2.watcherMap other = s.watcherMap other) ∧
      (s.watcherMap watchid = none → s2 = s) ∧
      (∀ w, s.watcherMap watchid = some w →
        s2.stopped = s.stopped ++ [w]) := by
  unfold Win.DelWatcher
  cases hw : s.watcherMap watchid with
  | none =>
    refine ⟨s, ?_, hl, hw, fun _ _ => rfl, fun _ => rfl, fun w h => by simp at h⟩
    cases s
    simp_all
  | some w =>
    refine ⟨_, by simp [hl, hw]; rfl, rfl, by simp [mapDelete], fun o ho => by simp [mapDelete, ho],
      fun h => by simp at h, fun w2 h => by simp at h; simp [h]⟩

/-- DelWatcher of mac_fsnotify.go: same contract as the one of win_fsnotify.go. -/
theorem mac_DelWatcher_spec {κ : Type} (s : Registry κ) (watchid : String)
    (hl : s.locked = false) :
    ∃ s2, Mac.DelWatcher s watchid = .returned s2 ∧ s2.locked = false ∧
      s2.watcherMap watchid = none ∧
      (∀ other, other ≠ watchid → s2.watcherMap other = s.watcherMap other) ∧
      (s.watcherMap watchid = none → s2 = s) ∧
      (∀ w, s.watcherMap watchid = some w →
        s2.stopped = s.stopped ++ [w]) := by
  unfold Mac.DelWatcher
  cases hw : s.watcherMap watchid with
  | none =>
    refine ⟨s, ?_, hl, hw, fun _ _ => rfl, fun _ => rfl, fun w h => by simp at h⟩
    cases s
    simp_all
  | some w =>
    refine ⟨_, by simp [hl, hw]; rfl, rfl, by simp [mapDelete], fun o ho => by simp [mapDelete, ho],
      fun h => by simp at h, fun w2 h => by simp at h; simp [h]⟩

/-- AddWatcher of win_fsnotify.go called with the mutex released never leaves it
held when it returns. -/
theorem win_AddWatcher_unlocks {κ : Type} (s : Registry κ) (watchid path : String) (cb : κ)
    (e1 e2 : Bool) (hl : s.locked = false) (s2 : Registry κ)
    (h : Win.AddWatcher s watchid path cb e1 e2 = .returned s2) : s2.locked = false := by
  unfold Win.AddWatcher at h
  simp only [hl, Bool.false_eq_true, if_false] at h
  split at h
  · cases h; rfl
  · split at h
    · cases h; rfl
    · split at h
      · cases h
      · cases h; rfl

/-- AddWatcher of mac_fsnotify.go called with the mutex released never leaves it
held when it returns. -/
theorem mac_AddWatcher_unlocks {κ : Type} (s : Registry κ) (watchid path : String) (cb : κ)
    (e1 : Bool) (hl : s.locked = false) (s2 : Registry κ)
    (h : Mac.AddWatcher s watchid path cb e1 = .returned s2) : s2.locked = false := by
  unfold Mac.AddWatcher at h
  simp only [hl, Bool.false_eq_true, if_false] at h
  split at h
  · cases h; rfl
  · split at h
    · cases h
    · cases h; rfl

end GxNotify

namespace GxNotify

/-! ## Claims on the normalizer of win_fsnotify.go -/

/-- C1. Variant A, win_fsnotify.go: after any stream of raw events `pre` fed to a
fresh goroutine, the raw event Rename(a) makes no callback, and Rename(a)
immediately followed by Create(b) makes exactly one callback,
(watchid, a, b, "rename", t), where t is "1" when the stat of b at that moment
answers a directory and "0" otherwise, a failed stat included; there is no
separate "create" callback for b. The last conjunct says the same on the whole
run: the callbacks of `pre` followed by that single callback. -/
theorem win_rename_then_create (watchid a b : String) (pre : List (FS × Win.Event))
    (fs1 fs2 : FS) :
    (Win.step watchid
        (Win.run watchid Win.Task.fresh (pre.map fun p => (p.1, Input.events p.2))).1
        (fs1, .events ⟨a, Win.Rename⟩)).2 = [] ∧
    (Win.run watchid
        (Win.run watchid Win.Task.fresh (pre.map fun p => (p.1, Input.events p.2))).1
        [(fs1, .events ⟨a, Win.Rename⟩), (fs2, .events ⟨b, Win.Create⟩)]).2 =
      [⟨watchid, a, b, "rename", if fs2 b = .ok true then "1" else "0"⟩] ∧
    (Win.run watchid Win.Task.fresh
        ((pre.map fun p => (p.1, Input.events p.2)) ++
          [(fs1, .events ⟨a, Win.Rename⟩), (fs2, .events ⟨b, Win.Create⟩)])).2 =
      (Win.run watchid Win.Task.fresh (pre.map fun p => (p.1, Input.events p.2))).2 ++
        [⟨watchid, a, b, "rename", if fs2 b = .ok true then "1" else "0"⟩] := by
  obtain ⟨l, hl⟩ := Win.run_events_running watchid pre ⟨"", 0⟩
  have hl2 : (Win.run watchid Win.Task.fresh
      (pre.map fun p => (p.1, Input.events p.2))).1 = .running l := hl
  have key : (Win.run watchid (.running l)
      [(fs1, .events ⟨a, Win.Rename⟩), (fs2, .events ⟨b, Win.Create⟩)]).2 =
      [⟨watchid, a, b, "rename", if fs2 b = .ok true then "1" else "0"⟩] := by
    simp [Win.run, Win.step, Win.onEvent_rename, Win.onEvent_rename_create]
  refine ⟨?_, ?_, ?_⟩
  · rw [hl2]; simp [Win.step, Win.onEvent_rename]
  · rw [hl2]; exact key
  · rw [Win.win_run_append, hl2, key]

/-- C2, evaluation at the failing input. Variant A, win_fsnotify.go: the raw
stream [Create("a.txt")] fed to a fresh goroutine makes no callback at all,
whatever the file system answers; the else branch tests the bits of
lastevent.Op, which is zero in the fresh state, and not those of event.Op. The
second conjunct shows the same slip with a previous event: Create("b.txt")
after Write("a.txt") makes a "change" callback for "b.txt" and no "create". -/
theorem win_create_alone_makes_no_callback (watchid : String) (fs fs2 : FS) :
    (Win.run watchid Win.Task.fresh [(fs, .events ⟨"a.txt", Win.Create⟩)]).2 = [] ∧
    (Win.run watchid Win.Task.fresh
        [(fs, .events ⟨"a.txt", Win.Write⟩), (fs2, .events ⟨"b.txt", Win.Create⟩)]).2 =
      [⟨watchid, "b.txt", "", "change", Win.getFileType fs2 "b.txt"⟩] := by
  constructor
  · simp [Win.run, Win.step, Win.Task.fresh, Win.onEvent, Win.Create, Win.Rename, Win.Write,
      Win.Remove]
  · simp [Win.run, Win.step, Win.Task.fresh, Win.onEvent, Win.Create, Win.Rename, Win.Write,
      Win.Remove, mapIndex, Win.noteDescription, List.lookup]

end GxNotify

namespace GxNotify

/-! ## Claims on the normalizer of mac_fsnotify.go -/

/-- C3. Variant B, mac_fsnotify.go: at every index i reached by the batch loop
such that record i+1 exists, the ID of record i plus one (the addition of the ID
type) equals the ID of record i+1, and both records carry ItemRenamed, the
iteration makes exactly one callback,
(watchid, "/" + batch[i].Path, "/" + batch[i+1].Path, "rename", t) with t = "1"
when batch[i] carries ItemIsDir and "0" otherwise, and the loop resumes at index
i+2: that index is reached, and the callbacks of the loop from i are this
callback followed by those of the loop from i+2. -/
theorem mac_rename_pair (K : Mac.Consts) (hK : K.Distinct) (watchid : String) (fs : Nat → FS)
    (msg : List Mac.Event) (i : Nat) (a b : Mac.Event) (hr : Mac.Reached K msg i)
    (ha : msg[i]? = some a) (hb : msg[i + 1]? = some b)
    (hid : (a.ID + 1) % 2 ^ K.idBits = b.ID)
    (hra : a.Flags &&& K.ItemRenamed = K.ItemRenamed)
    (hrb : b.Flags &&& K.ItemRenamed = K.ItemRenamed) :
    Mac.iteration K watchid fs msg i =
      ([⟨watchid, "/" ++ a.Path, "/" ++ b.Path, "rename",
          if a.Flags &&& K.ItemIsDir = K.ItemIsDir then "1" else "0"⟩], i + 2) ∧
    Mac.Reached K msg (i + 2) ∧
    Mac.scanFrom K watchid fs msg i =
      ⟨watchid, "/" ++ a.Path, "/" ++ b.Path, "rename",
          if a.Flags &&& K.ItemIsDir = K.ItemIsDir then "1" else "0"⟩ ::
        Mac.scanFrom K watchid fs msg (i + 2) := by
  have hi : i < msg.length := by
    rcases List.getElem?_eq_some.mp ha with ⟨h, _⟩
    exact h
  have hit : Mac.iteration K watchid fs msg i =
      ([⟨watchid, "/" ++ a.Path, "/" ++ b.Path, "rename",
          if a.Flags &&& K.ItemIsDir = K.ItemIsDir then "1" else "0"⟩], i + 2) := by
    unfold Mac.iteration
    rw [ha, hb]
    simp [Mac.seqID, hid, Mac.handleEvent2_eq K hK, hra, hrb]
  refine ⟨hit, ?_, ?_⟩
  · have h := Mac.Reached.next watchid fs hr hi
    rw [hit] at h
    exact h
  · rw [Mac.scanFrom_lt K watchid fs msg i hi, hit]
    rfl

/-- Witness of C3 on the constants of darwin: the batch of two Renamed records
"a" and "b" with IDs 7 and 8, at index 0. -/
theorem mac_rename_pair_witness :
    Mac.darwin.Distinct ∧
    Mac.iteration Mac.darwin "w" (fun _ _ => .notExist)
        [⟨"a", 0x800, 7⟩, ⟨"b", 0x800, 8⟩] 0 =
      ([⟨"w", "/" ++ "a", "/" ++ "b", "rename",
          if (0x800 : Nat) &&& Mac.darwin.ItemIsDir = Mac.darwin.ItemIsDir then "1" else "0"⟩],
        0 + 2) :=
  ⟨by decide,
    (mac_rename_pair Mac.darwin (by decide) "w" (fun _ _ => .notExist)
      [⟨"a", 0x800, 7⟩, ⟨"b", 0x800, 8⟩] 0 ⟨"a", 0x800, 7⟩ ⟨"b", 0x800, 8⟩
      Mac.Reached.start rfl rfl (by decide) (by decide) (by decide)).1⟩

/-- C4, evaluation at the failing input. Variant B, mac_fsnotify.go: the batch
[Created "a" with ID 5, Modified "b" with ID 6] makes no callback at all. The
IDs are sequential, so the loop hands both records to handleEvent2, which does
nothing unless both carry ItemRenamed, and the loop resumes at index 2: neither
record is classified alone. -/
theorem mac_sequential_ids_drop_records (watchid : String) (fs : Nat → FS) :
    Mac.onBatch Mac.darwin watchid fs
        [⟨"a", Mac.darwin.ItemCreated, 5⟩, ⟨"b", Mac.darwin.ItemModified, 6⟩] = [] ∧
    Mac.iteration Mac.darwin watchid fs
        [⟨"a", Mac.darwin.ItemCreated, 5⟩, ⟨"b", Mac.darwin.ItemModified, 6⟩] 0 = ([], 2) := by
  constructor
  · simp [Mac.onBatch, Mac.scanFrom, Mac.loop, Mac.iteration, Mac.seqID, Mac.handleEvent2,
      Mac.darwin]
  · simp [Mac.iteration, Mac.seqID, Mac.handleEvent2, Mac.darwin]

/-- C5. Variant B, handleEvent of mac_fsnotify.go: for every record with path p
and flags f and every answer of the stat call, the callbacks are exactly, in
this order: when f has ItemRenamed, a "create" if the stat of "/" + p succeeds
and a "delete" if it fails (with a not-exist error or any other error); when f
has ItemCreated, a "create"; when f has ItemRemoved, a "delete"; when f has
ItemModified, a "change". Each has oldPath "/" + p, an empty newPath, and
fileType "1" when f has ItemIsDir and "0" otherwise, read from the flags. -/
theorem mac_handleEvent_classification (K : Mac.Consts) (hK : K.Distinct) (watchid : String)
    (fs : FS) (p : String) (f id : Nat) :
    Mac.handleEvent K watchid fs ⟨p, f, id⟩ =
      (if f &&& K.ItemRenamed = K.ItemRenamed then
        [⟨watchid, "/" ++ p, "", if (fs ("/" ++ p)).isOk then "create" else "delete",
          if f &&& K.ItemIsDir = K.ItemIsDir then "1" else "0"⟩] else []) ++
      (if f &&& K.ItemCreated = K.ItemCreated then
        [⟨watchid, "/" ++ p, "", "create",
          if f &&& K.ItemIsDir = K.ItemIsDir then "1" else "0"⟩] else []) ++
      (if f &&& K.ItemRemoved = K.ItemRemoved then
        [⟨watchid, "/" ++ p, "", "delete",
          if f &&& K.ItemIsDir = K.ItemIsDir then "1" else "0"⟩] else []) ++
      (if f &&& K.ItemModified = K.ItemModified then
        [⟨watchid, "/" ++ p, "", "change",
          if f &&& K.ItemIsDir = K.ItemIsDir then "1" else "0"⟩] else []) :=
  Mac.handleEvent_eq K hK watchid fs ⟨p, f, id⟩

/-- Witness of C5 on the constants of darwin: a record with ItemRenamed and
ItemIsDir whose path does not exist is reported as one "delete" of a directory. -/
theorem mac_handleEvent_classification_witness :
    Mac.darwin.Distinct ∧
    Mac.handleEvent Mac.darwin "w" (fun _ => .notExist) ⟨"d", 0x20800, 3⟩ =
      [⟨"w", "/d", "", "delete", "1"⟩] :=
  ⟨by decide,
    (mac_handleEvent_classification Mac.darwin (by decide) "w" (fun _ => .notExist)
      "d" 0x20800 3).trans (by decide)⟩

end GxNotify

namespace GxNotify

/-! ## Callback shape -/

/-- Shape of every callback of handleEvent. -/
theorem Mac.handleEvent_shape (K : Mac.Consts) (hK : K.Distinct) (watchid : String) (fs : FS)
    (e : Mac.Event) (c : Call) (hc : c ∈ Mac.handleEvent K watchid fs e) :
    c.watchid = watchid ∧ (c.op = "create" ∨ c.op = "delete" ∨ c.op = "change") ∧
    (c.filetype = "0" ∨ c.filetype = "1") ∧ c.newfile = "" ∧ c.oldfile = "/" ++ e.Path := by
  rw [Mac.handleEvent_eq K hK] at hc
  simp only [List.mem_append] at hc
  rcases hc with ((hc | hc) | hc) | hc <;>
  · split at hc
    · simp only [List.mem_singleton] at hc
      subst hc
      refine ⟨rfl, ?_, ?_, rfl, rfl⟩
      · first
          | (simp only []; split <;> simp)
          | simp
      · simp only []; split <;> simp
    · simp at hc

/-- Shape of every callback of handleEvent2. -/
theorem Mac.handleEvent2_shape (K : Mac.Consts) (hK : K.Distinct) (watchid : String)
    (a b : Mac.Event) (c : Call) (hc : c ∈ Mac.handleEvent2 K watchid a b) :
    c.watchid = watchid ∧ c.op = "rename" ∧ (c.filetype = "0" ∨ c.filetype = "1") ∧
    c.oldfile = "/" ++ a.Path ∧ c.newfile = "/" ++ b.Path ∧
    a.Flags &&& K.ItemRenamed = K.ItemRenamed ∧ b.Flags &&& K.ItemRenamed = K.ItemRenamed := by
  rw [Mac.handleEvent2_eq K hK] at hc
  split at hc
  · rename_i h
    simp only [List.mem_singleton] at hc
    subst hc
    refine ⟨rfl, rfl, ?_, rfl, rfl, h.1, h.2⟩
    simp only []; split <;> simp
  · simp at hc

/-- Shape of every callback of one iteration of the batch loop. -/
theorem Mac.iteration_shape (K : Mac.Consts) (hK : K.Distinct) (watchid : String)
    (fs : Nat → FS) (msg : List Mac.Event) (j : Nat) (c : Call)
    (hc : c ∈ (Mac.iteration K watchid fs msg j).1) :
    c.watchid = watchid ∧
    (c.op = "create" ∨ c.op = "delete" ∨ c.op = "rename" ∨ c.op = "change") ∧
    (c.filetype = "0" ∨ c.filetype = "1") ∧
    (c.op ≠ "rename" → c.newfile = "") ∧
    (c.op = "rename" → ∃ a b, msg[j]? = some a ∧ msg[j + 1]? = some b ∧
      a.Flags &&& K.ItemRenamed = K.ItemRenamed ∧ b.Flags &&& K.ItemRenamed = K.ItemRenamed ∧
      c.oldfile = "/" ++ a.Path ∧ c.newfile = "/" ++ b.Path) := by
  have alone : ∀ e, c ∈ Mac.handleEvent K watchid (fs j) e →
      c.watchid = watchid ∧
      (c.op = "create" ∨ c.op = "delete" ∨ c.op = "rename" ∨ c.op = "change") ∧
      (c.filetype = "0" ∨ c.filetype = "1") ∧
      (c.op ≠ "rename" → c.newfile = "") ∧
      (c.op = "rename" → ∃ a b, msg[j]? = some a ∧ msg[j + 1]? = some b ∧
        a.Flags &&& K.ItemRenamed = K.ItemRenamed ∧ b.Flags &&& K.ItemRenamed = K.ItemRenamed ∧
        c.oldfile = "/" ++ a.Path ∧ c.newfile = "/" ++ b.Path) := by
    intro e he
    obtain ⟨h1, h2, h3, h4, _⟩ := Mac.handleEvent_shape K hK watchid (fs j) e c he
    refine ⟨h1, ?_, h3, fun _ => h4, fun hr => ?_⟩
    · rcases h2 with h | h | h <;> simp [h]
    · rcases h2 with h | h | h <;> simp [h] at hr
  unfold Mac.iteration at hc
  split at hc
  · rename_i a b ha hb
    split at hc
    · obtain ⟨h1, h2, h3, h4, h5, h6, h7⟩ := Mac.handleEvent2_shape K hK watchid a b c hc
      exact ⟨h1, by simp [h2], h3, fun h => absurd h2 h, fun _ => ⟨a, b, ha, hb, h6, h7, h4, h5⟩⟩
    · exact alone a hc
  · rename_i a ha hb
    exact alone a hc
  · simp at hc

/-- C8. Callback shape. Variant A, win_fsnotify.go: every callback a fresh
goroutine makes over any sequence of received inputs carries the watch id, an
operation token among "create", "delete", "rename", "change", a fileType token
among "0", "1", an empty newPath when the operation is not "rename", and, when
it is "rename", oldPath and newPath are the names of two raw events received one
right after the other, in that order, the first carrying the Rename bit.
Variant B, mac_fsnotify.go: the same for every callback made for any batch,
and for "rename" oldPath and newPath are the paths, written with the leading
"/" the code puts before them, of two records standing next to each other in the
batch and both carrying ItemRenamed. -/
theorem callback_shape (watchid : String) (K : Mac.Consts) (hK : K.Distinct) :
    (∀ (inputs : List (FS × Input Win.Event)) (c : Call),
      c ∈ (Win.run watchid Win.Task.fresh inputs).2 →
        c.watchid = watchid ∧
        (c.op = "create" ∨ c.op = "delete" ∨ c.op = "rename" ∨ c.op = "change") ∧
        (c.filetype = "0" ∨ c.filetype = "1") ∧
        (c.op ≠ "rename" → c.newfile = "") ∧
        (c.op = "rename" → ∃ e1 e2, [e1, e2] <:+: Win.received inputs ∧
          e1.Op &&& Win.Rename = Win.Rename ∧ c.oldfile = e1.Name ∧ c.newfile = e2.Name)) ∧
    (∀ (fs : Nat → FS) (msg : List Mac.Event) (c : Call),
      c ∈ Mac.onBatch K watchid fs msg →
        c.watchid = watchid ∧
        (c.op = "create" ∨ c.op = "delete" ∨ c.op = "rename" ∨ c.op = "change") ∧
        (c.filetype = "0" ∨ c.filetype = "1") ∧
        (c.op ≠ "rename" → c.newfile = "") ∧
        (c.op = "rename" → ∃ i a b, msg[i]? = some a ∧ msg[i + 1]? = some b ∧
          a.Flags &&& K.ItemRenamed = K.ItemRenamed ∧
          b.Flags &&& K.ItemRenamed = K.ItemRenamed ∧
          c.oldfile = "/" ++ a.Path ∧ c.newfile = "/" ++ b.Path)) := by
  constructor
  · intro inputs c hc
    obtain ⟨h1, h2, h3, h4, h5⟩ := Win.run_shape watchid ⟨"", 0⟩ inputs c hc
    refine ⟨h1, h2, h3, h4, fun hr => ?_⟩
    obtain ⟨e1, e2, hin, ha, hb, hd⟩ := h5 hr
    refine ⟨e1, e2, ?_, ha, hb, hd⟩
    rcases List.infix_cons_iff.mp hin with hp | hi
    · exfalso
      obtain ⟨t, ht⟩ := hp
      simp only [List.cons_append, List.cons.injEq] at ht
      rw [ht.1] at ha
      simp [Win.Rename] at ha
    · exact hi
  · intro fs msg c hc
    obtain ⟨j, _, hj⟩ := Mac.mem_scanFrom K watchid fs msg _ 0 c hc
    obtain ⟨h1, h2, h3, h4, h5⟩ := Mac.iteration_shape K hK watchid fs msg j c hj
    exact ⟨h1, h2, h3, h4, fun hr => ⟨j, h5 hr⟩⟩

end GxNotify

namespace GxNotify

/-- Witness of C8: the rename callback of the stream [Rename("a"), Create("b")]
in variant A, and the rename callback of the batch of two Renamed records "a"
and "b" with IDs 7 and 8 in variant B, on the constants of darwin. -/
theorem callback_shape_witness :
    Mac.darwin.Distinct ∧
    ((⟨"w", "a", "b", "rename", "0"⟩ : Call) ∈
        (Win.run "w" Win.Task.fresh
          [(fun _ => .notExist, .events ⟨"a", Win.Rename⟩),
            (fun _ => .notExist, .events ⟨"b", Win.Create⟩)]).2 ∧
      ∃ e1 e2, [e1, e2] <:+: Win.received
          [(fun _ => .notExist, .events ⟨"a", Win.Rename⟩),
            (fun _ => .notExist, .events ⟨"b", Win.Create⟩)] ∧
        e1.Op &&& Win.Rename = Win.Rename ∧ "a" = e1.Name ∧ "b" = e2.Name) ∧
    ((⟨"w", "/a", "/b", "rename", "0"⟩ : Call) ∈
        Mac.onBatch Mac.darwin "w" (fun _ _ => .notExist)
          [⟨"a", 0x800, 7⟩, ⟨"b", 0x800, 8⟩] ∧
      ∃ i a b, [(⟨"a", 0x800, 7⟩ : Mac.Event), ⟨"b", 0x800, 8⟩][i]? = some a ∧
        [(⟨"a", 0x800, 7⟩ : Mac.Event), ⟨"b", 0x800, 8⟩][i + 1]? = some b ∧
        a.Flags &&& Mac.darwin.ItemRenamed = Mac.darwin.ItemRenamed ∧
        b.Flags &&& Mac.darwin.ItemRenamed = Mac.darwin.ItemRenamed ∧
        "/a" = "/" ++ a.Path ∧ "/b" = "/" ++ b.Path) :=
  ⟨by decide,
    ⟨by decide,
      ((callback_shape "w" Mac.darwin (by decide)).1 _ ⟨"w", "a", "b", "rename", "0"⟩
        (by decide)).2.2.2.2 rfl⟩,
    ⟨by decide,
      ((callback_shape "w" Mac.darwin (by decide)).2 (fun _ _ => .notExist) _
        ⟨"w", "/a", "/b", "rename", "0"⟩ (by decide)).2.2.2.2 rfl⟩⟩

/-! ## Task lifetime -/

theorem Fsnotify.fsnotify_run_done (watchid : String) (xs : List (Input Fsnotify.Event)) :
    Fsnotify.run watchid .done xs = (.done, []) := by
  induction xs with
  | nil => rfl
  | cons x xs ih => simp [Fsnotify.run, Fsnotify.step, ih]

theorem Mac.mac_run_done (K : Mac.Consts) (watchid : String)
    (xs : List ((Nat → FS) × Input (List Mac.Event))) :
    Mac.run K watchid .done xs = (.done, []) := by
  induction xs with
  | nil => rfl
  | cons x xs ih => simp [Mac.run, Mac.step, ih]

theorem Fsnotify.fsnotify_run_append (watchid : String) (t : Fsnotify.Task)
    (xs ys : List (Input Fsnotify.Event)) :
    Fsnotify.run watchid t (xs ++ ys) =
      ((Fsnotify.run watchid (Fsnotify.run watchid t xs).1 ys).1,
        (Fsnotify.run watchid t xs).2 ++
          (Fsnotify.run watchid (Fsnotify.run watchid t xs).1 ys).2) := by
  induction xs generalizing t with
  | nil => simp [Fsnotify.run]
  | cons x xs ih => simp [Fsnotify.run, ih, List.append_assoc]

/-- C9, evaluation at the failing inputs, on the constants of darwin. Goroutine of
mac_fsnotify.go: a non-nil error value is not a read from a closed stream, yet it
ends the goroutine, and the batch [Created "a"] that arrives after it makes no
callback, while the same batch without the error before it makes the "create"
callback. A read on the closed Events channel and a read on the closed Errors
channel are reads from a closed stream, yet each leaves the goroutine running,
and the batch that arrives after either still makes its callback. -/
theorem mac_task_lifetime_diverges :
    Input.isClosure (Input.errors true : Input (List Mac.Event)) = false ∧
    (Mac.step Mac.darwin "w" .running (fun _ _ => .notExist, .errors true)).1 = .done ∧
    (Mac.run Mac.darwin "w" .running
        [(fun _ _ => .notExist, .errors true),
          (fun _ _ => .notExist, .events [⟨"a", 0x100, 1⟩])]).2 = [] ∧
    (Mac.run Mac.darwin "w" .running
        [(fun _ _ => .notExist, .events [⟨"a", 0x100, 1⟩])]).2 =
      [⟨"w", "/a", "", "create", "0"⟩] ∧
    Input.isClosure (Input.eventsClosed : Input (List Mac.Event)) = true ∧
    (Mac.step Mac.darwin "w" .running (fun _ _ => .notExist, .eventsClosed)).1 = .running ∧
    (Mac.run Mac.darwin "w" .running
        [(fun _ _ => .notExist, .eventsClosed),
          (fun _ _ => .notExist, .events [⟨"a", 0x100, 1⟩])]).2 =
      [⟨"w", "/a", "", "create", "0"⟩] ∧
    Input.isClosure (Input.errorsClosed : Input (List Mac.Event)) = true ∧
    (Mac.step Mac.darwin "w" .running (fun _ _ => .notExist, .errorsClosed)).1 = .running ∧
    (Mac.run Mac.darwin "w" .running
        [(fun _ _ => .notExist, .errorsClosed),
          (fun _ _ => .notExist, .events [⟨"a", 0x100, 1⟩])]).2 =
      [⟨"w", "/a", "", "create", "0"⟩] := by
  decide

end GxNotify

namespace GxNotify

theorem Win.win_run_errors (watchid : String) (t : Win.Task) (fs : FS) (b : Bool)
    (xs : List (FS × Input Win.Event)) :
    Win.run watchid t ((fs, .errors b) :: xs) = Win.run watchid t xs := by
  cases t <;> simp [Win.run, Win.step]

theorem Fsnotify.fsnotify_run_errors (watchid : String) (t : Fsnotify.Task) (b : Bool)
    (xs : List (Input Fsnotify.Event)) :
    Fsnotify.run watchid t (.errors b :: xs) = Fsnotify.run watchid t xs := by
  cases t <;> simp [Fsnotify.run, Fsnotify.step]

/-- What ends each goroutine. Goroutines of win_fsnotify.go and fsnotify.go: a
step of a running goroutine ends it exactly when the input is a read from a
closed stream; an error value anywhere in the input sequence changes neither the
final state nor the callbacks; an ended goroutine makes no callback on any later
input. Goroutine of mac_fsnotify.go: a non-nil error value ends it and an ended
goroutine makes no callback on any later input, while a batch and a nil error
value leave it running. -/
theorem goroutine_end_conditions (watchid : String) (K : Mac.Consts) :
    ((∀ (last : Win.Event) (x : FS × Input Win.Event),
        (Win.step watchid (.running last) x).1 = .done ↔ x.2.isClosure = true) ∧
      (∀ (pre post : List (FS × Input Win.Event)) (fs : FS) (b : Bool),
        Win.run watchid Win.Task.fresh (pre ++ (fs, .errors b) :: post) =
          Win.run watchid Win.Task.fresh (pre ++ post)) ∧
      (∀ xs : List (FS × Input Win.Event), Win.run watchid .done xs = (.done, []))) ∧
    ((∀ (last : Fsnotify.Event) (x : Input Fsnotify.Event),
        (Fsnotify.step watchid (.running last) x).1 = .done ↔ x.isClosure = true) ∧
      (∀ (pre post : List (Input Fsnotify.Event)) (b : Bool),
        Fsnotify.run watchid Fsnotify.Task.fresh (pre ++ .errors b :: post) =
          Fsnotify.run watchid Fsnotify.Task.fresh (pre ++ post)) ∧
      (∀ xs : List (Input Fsnotify.Event), Fsnotify.run watchid .done xs = (.done, []))) ∧
    ((∀ fs : Nat → FS, Mac.step K watchid .running (fs, .errors true) = (.done, [])) ∧
      (∀ xs : List ((Nat → FS) × Input (List Mac.Event)),
        Mac.run K watchid .done xs = (.done, [])) ∧
      (∀ (fs : Nat → FS) (msg : List Mac.Event),
        (Mac.step K watchid .running (fs, .events msg)).1 = .running) ∧
      (∀ fs : Nat → FS, Mac.step K watchid .running (fs, .errors false) = (.running, []))) := by
  refine ⟨⟨?_, ?_, Win.win_run_done watchid⟩, ⟨?_, ?_, Fsnotify.fsnotify_run_done watchid⟩,
    ⟨fun _ => rfl, Mac.mac_run_done K watchid, fun _ _ => rfl, fun _ => rfl⟩⟩
  · rintro last ⟨fs, x⟩
    cases x <;> simp [Win.step, Input.isClosure]
  · intro pre post fs b
    rw [Win.win_run_append, Win.win_run_append, Win.win_run_errors]
  · intro last x
    cases x <;> simp [Fsnotify.step, Input.isClosure]
  · intro pre post b
    rw [Fsnotify.fsnotify_run_append, Fsnotify.fsnotify_run_append, Fsnotify.fsnotify_run_errors]

/-! ## Claims on the registry -/

/-- Duplicate registration in win_fsnotify.go: with the mutex released and the id
present, AddWatcher returns and the whole registry state, mutex included, is
the one before the call. -/
theorem win_duplicate_AddWatcher_frame {κ : Type} (s : Registry κ) (watchid path : String)
    (cb : κ) (e1 e2 : Bool) (w : Nat) (hl : s.locked = false)
    (h : s.watcherMap watchid = some w) :
    Win.AddWatcher s watchid path cb e1 e2 = .returned s := by
  unfold Win.AddWatcher
  cases s
  simp_all

/-- Duplicate registration in mac_fsnotify.go: with the mutex released and the id
present, AddWatcher returns and the whole registry state, mutex included, is
the one before the call. -/
theorem mac_duplicate_AddWatcher_frame {κ : Type} (s : Registry κ) (watchid path : String)
    (cb : κ) (e1 : Bool) (w : Nat) (hl : s.locked = false)
    (h : s.watcherMap watchid = some w) :
    Mac.AddWatcher s watchid path cb e1 = .returned s := by
  unfold Mac.AddWatcher
  cases s
  simp_all

/-- Duplicate registration in fsnotify.go: the map, the sources created, started
and stopped and the goroutines are the ones before the call, whatever the state
of the mutex. -/
theorem fsnotify_duplicate_AddWatcher_frame {κ : Type} (s : Registry κ)
    (watchid path : String) (cb : κ) (e1 e2 : Bool) (w : Nat)
    (h : s.watcherMap watchid = some w) :
    (Fsnotify.AddWatcher s watchid path cb e1 e2).state.watcherMap = s.watcherMap ∧
    (Fsnotify.AddWatcher s watchid path cb e1 e2).state.created = s.created ∧
    (Fsnotify.AddWatcher s watchid path cb e1 e2).state.started = s.started ∧
    (Fsnotify.AddWatcher s watchid path cb e1 e2).state.tasks = s.tasks ∧
    (Fsnotify.AddWatcher s watchid path cb e1 e2).state.stopped = s.stopped := by
  unfold Fsnotify.AddWatcher
  cases hl : s.locked <;> simp [h, Outcome.state]

/-- C6, evaluation at the failing input. AddWatcher of fsnotify.go called a second
time with the id "w" on the registry holding the watch "w", mutex released: the
call returns, the entry of "w", the sources and the goroutines are untouched,
but the mutex, released before the call, is held after it. The effect shows in
the next call: DelWatcher("w") returns and stops source 0 on the registry
before the duplicate call, and never gets past Lock and stops nothing on the
registry after it. -/
theorem fsnotify_duplicate_AddWatcher_has_effect :
    Registry.oneWatch.locked = false ∧ Registry.oneWatch.watcherMap "w" = some 0 ∧
    (Fsnotify.AddWatcher Registry.oneWatch "w" "/tmp/e" () false false).isReturned = true ∧
    (Fsnotify.AddWatcher Registry.oneWatch "w" "/tmp/e" () false false).state.watcherMap "w"
      = some 0 ∧
    (Fsnotify.AddWatcher Registry.oneWatch "w" "/tmp/e" () false false).state.created = 1 ∧
    (Fsnotify.AddWatcher Registry.oneWatch "w" "/tmp/e" () false false).state.tasks
      = [("w", 0, ())] ∧
    (Fsnotify.AddWatcher Registry.oneWatch "w" "/tmp/e" () false false).state.locked = true ∧
    (Fsnotify.DelWatcher Registry.oneWatch "w").isReturned = true ∧
    (Fsnotify.DelWatcher Registry.oneWatch "w").state.stopped = [0] ∧
    (Fsnotify.DelWatcher
      (Fsnotify.AddWatcher Registry.oneWatch "w" "/tmp/e" () false false).state "w").isReturned
      = false ∧
    (Fsnotify.DelWatcher
      (Fsnotify.AddWatcher Registry.oneWatch "w" "/tmp/e" () false false).state "w").state.stopped
      = [] := by
  decide

/-- C7, evaluation at the failing input. DelWatcher of fsnotify.go on the
registry holding the watch "w" on source 0: it returns, the source is closed
once, and the entry for "w" is still in the map; a second DelWatcher("w")
therefore closes the same source a second time. -/
theorem fsnotify_DelWatcher_keeps_entry :
    Registry.oneWatch.locked = false ∧ Registry.oneWatch.watcherMap "w" = some 0 ∧
    (Fsnotify.DelWatcher Registry.oneWatch "w").isReturned = true ∧
    (Fsnotify.DelWatcher Registry.oneWatch "w").state.watcherMap "w" = some 0 ∧
    (Fsnotify.DelWatcher Registry.oneWatch "w").state.stopped = [0] ∧
    (Fsnotify.DelWatcher (Fsnotify.DelWatcher Registry.oneWatch "w").state "w").isReturned
      = true ∧
    (Fsnotify.DelWatcher (Fsnotify.DelWatcher Registry.oneWatch "w").state "w").state.stopCount 0
      = 2 := by
  decide

/-- C10, evaluation at the failing input. AddWatcher of fsnotify.go on the
registry holding the watch "w", mutex released: the call with the id "w" already
present returns with the mutex held, and so does the call with a new id when
NewWatcher fails; after the first, DelWatcher and AddWatcher never get past
Lock. -/
theorem fsnotify_AddWatcher_returns_with_mutex_held :
    Registry.oneWatch.locked = false ∧
    (Fsnotify.AddWatcher Registry.oneWatch "w" "/tmp/d" () false false).isReturned = true ∧
    (Fsnotify.AddWatcher Registry.oneWatch "w" "/tmp/d" () false false).state.locked = true ∧
    (Fsnotify.AddWatcher Registry.oneWatch "w2" "/tmp/d" () true false).isReturned = true ∧
    (Fsnotify.AddWatcher Registry.oneWatch "w2" "/tmp/d" () true false).state.locked = true ∧
    (Fsnotify.DelWatcher
      (Fsnotify.AddWatcher Registry.oneWatch "w" "/tmp/d" () false false).state "w").isBlocked
      = true ∧
    (Fsnotify.AddWatcher
      (Fsnotify.AddWatcher Registry.oneWatch "w" "/tmp/d" () false false).state
      "w2" "/tmp/e" () false false).isBlocked = true := by
  decide

end GxNotify
